import Mathlib

/-
Verification development for the N-body gravity simulation engine
(src/physics_engine.py): the body data model, the pairwise gravitational
force evaluator, the velocity-Verlet and RK4 integrators, the collision
policies (elastic and merge), and the engine step.

Numbers: numpy float64 arithmetic is idealized as real arithmetic, so every
scalar is `ℝ` and a numpy 3-array is the structure `Vec3` below.  Mutation of
Python objects is modelled by explicit state passing: each engine method
becomes a function `SimulationEngine → SimulationEngine`.  The source's
`np.random.rand(3)` calls are modelled by an explicit stream of vectors
passed to the elastic collision pass.
-/

noncomputable section

set_option maxHeartbeats 1000000

/-- A 3-component real vector (idealized numpy float64 array of length 3). -/
@[ext] structure Vec3 where
  x : ℝ
  y : ℝ
  z : ℝ

namespace Vec3

instance : Zero Vec3 := ⟨⟨0, 0, 0⟩⟩
instance : Add Vec3 := ⟨fun v w => ⟨v.x + w.x, v.y + w.y, v.z + w.z⟩⟩
instance : Sub Vec3 := ⟨fun v w => ⟨v.x - w.x, v.y - w.y, v.z - w.z⟩⟩
instance : SMul ℝ Vec3 := ⟨fun c v => ⟨c * v.x, c * v.y, c * v.z⟩⟩

@[simp] lemma x_mk (a b c : ℝ) : (Vec3.mk a b c).x = a := rfl

@[simp] lemma y_mk (a b c : ℝ) : (Vec3.mk a b c).y = b := rfl

@[simp] lemma z_mk (a b c : ℝ) : (Vec3.mk a b c).z = c := rfl

@[simp] lemma x_add (v w : Vec3) : (v + w).x = v.x + w.x := rfl

@[simp] lemma y_add (v w : Vec3) : (v + w).y = v.y + w.y := rfl

@[simp] lemma z_add (v w : Vec3) : (v + w).z = v.z + w.z := rfl

@[simp] lemma x_sub (v w : Vec3) : (v - w).x = v.x - w.x := rfl

@[simp] lemma y_sub (v w : Vec3) : (v - w).y = v.y - w.y := rfl

@[simp] lemma z_sub (v w : Vec3) : (v - w).z = v.z - w.z := rfl

@[simp] lemma x_smul (c : ℝ) (v : Vec3) : (c • v).x = c * v.x := rfl

@[simp] lemma y_smul (c : ℝ) (v : Vec3) : (c • v).y = c * v.y := rfl

@[simp] lemma z_smul (c : ℝ) (v : Vec3) : (c • v).z = c * v.z := rfl

@[simp] lemma x_zero : (0 : Vec3).x = 0 := rfl

@[simp] lemma y_zero : (0 : Vec3).y = 0 := rfl

@[simp] lemma z_zero : (0 : Vec3).z = 0 := rfl

instance : AddCommMonoid Vec3 where
  add := (· + ·)
  zero := 0
  add_assoc := by intro a b c; ext <;> simp <;> ring
  zero_add := by intro a; ext <;> simp
  add_zero := by intro a; ext <;> simp
  add_comm := by intro a b; ext <;> simp <;> ring
  nsmul := nsmulRec

end Vec3

/-- Dot product of two 3-vectors (np.sum(v*w) / np.dot). -/
def dot (v w : Vec3) : ℝ := v.x * w.x + v.y * w.y + v.z * w.z

/-- Componentwise division of a numpy vector by a scalar. -/
def sdiv (v : Vec3) (c : ℝ) : Vec3 := ⟨v.x / c, v.y / c, v.z / c⟩

/-- Euclidean norm of a 3-vector (np.linalg.norm). -/
def vnorm (v : Vec3) : ℝ := Real.sqrt (dot v v)

lemma dot_self_nonneg (v : Vec3) : 0 ≤ dot v v :=
  add_nonneg (add_nonneg (mul_self_nonneg _) (mul_self_nonneg _)) (mul_self_nonneg _)

/-- A single celestial body: class SimBody of src/physics_engine.py. -/
structure SimBody where
  id : Int
  name : String
  mass : ℝ
  pos : Vec3
  vel : Vec3
  acc : Vec3
  radius : ℝ
  color : String
  trail : List Vec3
  merged : Bool

/-- SimBody.__init__ after successful validation: acceleration zeroed, empty
trail, merged flag false.  The source raises ValueError when mass ≤ 0 or
radius ≤ 0; that validation is modelled by `fromDict` (for deserialization)
and by validity hypotheses on the theorems. -/
def mkBody (id : Int) (name : String) (mass : ℝ) (pos vel : Vec3)
    (radius : ℝ) (color : String) : SimBody :=
  ⟨id, name, mass, pos, vel, 0, radius, color, [], false⟩

/-- The simulation engine state: class SimulationEngine's attributes. -/
structure SimulationEngine where
  bodies : List SimBody
  G : ℝ
  dt : ℝ
  time_elapsed : ℝ
  integrator_type : String
  collision_model : String
  next_body_id : Int

/-- SimulationEngine.__init__. -/
def mkEngine : SimulationEngine :=
  { bodies := [], G := 6.674e-11, dt := 3600.0, time_elapsed := 0,
    integrator_type := "rk4", collision_model := "ignore", next_body_id := 0 }

/-- One inner-loop contribution of `_calculate_accelerations`: the
acceleration on `bi` due to `bj`, zero when the squared separation is below
the 1e-18 guard (the `continue`). -/
def accContrib (G : ℝ) (bi bj : SimBody) : Vec3 :=
  let r_vec := bj.pos - bi.pos
  let r_mag_sq := dot r_vec r_vec
  if r_mag_sq < 1e-18 then 0
  else (G * bj.mass / r_mag_sq) • sdiv r_vec (Real.sqrt r_mag_sq)

/-- The whole inner loop of `_calculate_accelerations` for the body `bi`
sitting at index `i`: acceleration starts at zero and accumulates a
contribution from every other body that is not merged.  The identity test
`body_i is body_j` is index disequality. -/
def calcAccBody (G : ℝ) (bodies : List SimBody) (i : ℕ) (bi : SimBody) : Vec3 :=
  bodies.enum.foldl
    (fun a jb => if jb.2.merged = true ∨ jb.1 = i then a else a + accContrib G bi jb.2) 0

/-- SimulationEngine._calculate_accelerations.  The outer loop skips merged
bodies (their stale acceleration is kept) and overwrites each non-merged
body's acceleration.  The loop only ever writes `acc` fields and only ever
reads `pos`, `mass` and `merged` fields, so the sequential in-place updates
equal this simultaneous update. -/
def calculateAccelerations (e : SimulationEngine) : SimulationEngine :=
  { e with bodies := e.bodies.enum.map (fun ib =>
      if ib.2.merged then ib.2 else { ib.2 with acc := calcAccBody e.G e.bodies ib.1 ib.2 }) }

/-- Modelled from the spec's force-evaluator formula (section 4.1): the net
acceleration on body i is `Σ_j G·m_j·(p_j − p_i) / |p_j − p_i|³` over every
other non-merged body j, a pair being skipped when its squared separation is
below 1e-18. -/
def specAccel (G : ℝ) (bodies : List SimBody) (i : ℕ) (bi : SimBody) : Vec3 :=
  (bodies.enum.map (fun jb =>
    if jb.1 ≠ i ∧ jb.2.merged = false ∧
        ¬ dot (jb.2.pos - bi.pos) (jb.2.pos - bi.pos) < 1e-18 then
      (G * jb.2.mass / (vnorm (jb.2.pos - bi.pos)) ^ 3) • (jb.2.pos - bi.pos)
    else 0)).sum

section Helpers

variable {α M : Type*}

lemma foldl_if_add [AddCommMonoid M] (C : α → Prop) [DecidablePred C] (g : α → M) :
    ∀ (l : List α) (a : M),
      l.foldl (fun acc x => if C x then acc else acc + g x) a
        = a + (l.map (fun x => if C x then 0 else g x)).sum := by
  intro l
  induction l with
  | nil => intro a; simp
  | cons x xs ih =>
    intro a
    by_cases h : C x <;> simp [h, ih, add_assoc]

end Helpers

/-- The pointwise algebraic identity behind the force evaluator: the code's
`(G·m/r²)·(r_vec/r)` equals the spec's `G·m·r_vec/|r|³` once the squared
separation has passed the 1e-18 guard. -/
lemma contrib_eq_spec (G m : ℝ) (r : Vec3) (hs : ¬ dot r r < 1e-18) :
    (G * m / dot r r) • sdiv r (Real.sqrt (dot r r))
      = (G * m / (vnorm r) ^ 3) • r := by
  have h0 : (0 : ℝ) < dot r r := lt_of_lt_of_le (by norm_num) (not_lt.mp hs)
  have hsq : (0 : ℝ) < Real.sqrt (dot r r) := Real.sqrt_pos.mpr h0
  have h3 : (vnorm r) ^ 3 = dot r r * Real.sqrt (dot r r) := by
    rw [vnorm, pow_succ, Real.sq_sqrt h0.le]
  ext <;> (simp [sdiv, h3]; field_simp)

/-- For every body index, the code's accumulated acceleration equals the
spec's sum. -/
lemma calcAccBody_eq_spec (G : ℝ) (bodies : List SimBody) (i : ℕ) (bi : SimBody) :
    calcAccBody G bodies i bi = specAccel G bodies i bi := by
  rw [calcAccBody, specAccel,
    foldl_if_add (fun jb : ℕ × SimBody => jb.2.merged = true ∨ jb.1 = i)
      (fun jb => accContrib G bi jb.2), zero_add]
  congr 1
  apply List.map_congr_left
  intro jb _
  by_cases hm : jb.2.merged = true
  · simp [hm]
  · by_cases hi : jb.1 = i
    · simp [hm, hi]
    · have hcond : ¬ (jb.2.merged = true ∨ jb.1 = i) := by tauto
      rw [if_neg hcond, accContrib]
      by_cases hsep : dot (jb.2.pos - bi.pos) (jb.2.pos - bi.pos) < 1e-18
      · simp [hsep, hm, hi, Bool.eq_false_iff]
      · have : jb.1 ≠ i ∧ jb.2.merged = false ∧
            ¬ dot (jb.2.pos - bi.pos) (jb.2.pos - bi.pos) < 1e-18 :=
          ⟨hi, by simpa using hm, hsep⟩
        simp only [if_neg hsep, if_pos this]
        exact contrib_eq_spec G jb.2.mass _ hsep

/-- C1: `_calculate_accelerations` overwrites each non-merged body's
acceleration with `Σ_j G·m_j·(p_j − p_i)/|p_j − p_i|³` over the other
non-merged bodies, skipping any pair whose squared separation is below 1e-18;
merged bodies neither receive nor contribute acceleration, and nothing else
in the engine state changes. -/
theorem calculateAccelerations_meets_spec (e : SimulationEngine) :
    calculateAccelerations e =
      { e with bodies := e.bodies.enum.map (fun ib =>
          if ib.2.merged then ib.2
          else { ib.2 with acc := specAccel e.G e.bodies ib.1 ib.2 }) } := by
  rw [calculateAccelerations]
  congr 1
  apply List.map_congr_left
  intro ib _
  by_cases hm : ib.2.merged <;> simp [hm, calcAccBody_eq_spec]

/-- Python dict lookup for a dict built by inserting the pairs of `l` in
order: a later binding of the same key overwrites an earlier one, hence the
lookup on the reversed list. -/
def dictGet (l : List (Int × Vec3)) (k : Int) : Option Vec3 :=
  l.reverse.lookup k

/-- The position update (drift) of `_verlet_step`:
`body.pos += body.vel * dt + 0.5 * body.acc * dt**2`, applied to each
non-merged body. -/
def verletDrift (dt : ℝ) (b : SimBody) : SimBody :=
  if b.merged then b
  else { b with pos := b.pos + dt • b.vel + (0.5 * dt ^ 2) • b.acc }

/-- SimulationEngine._verlet_step: no-op without active bodies; otherwise
drift all active positions, snapshot the active accelerations keyed by body
id, recompute all accelerations, then half-kick every active body whose id
is in the snapshot. -/
def verletStep (e : SimulationEngine) : SimulationEngine :=
  if (e.bodies.filter (fun b => !b.merged)).isEmpty then e
  else
    let drifted := { e with bodies := e.bodies.map (verletDrift e.dt) }
    let snap := (drifted.bodies.filter (fun b => !b.merged)).map (fun b => (b.id, b.acc))
    let recomputed := calculateAccelerations drifted
    { recomputed with bodies := recomputed.bodies.map (fun b =>
        if b.merged then b
        else match dictGet snap b.id with
          | some aOld => { b with vel := b.vel + (0.5 * e.dt) • (aOld + b.acc) }
          | none => b) }

/-- What claim C2 says one velocity-Verlet step does to the engine state `e`:
(1) every active body drifts by `v·dt + ½·a_old·dt²` using the pre-step
acceleration, (2) the pre-step accelerations of the active bodies are
snapshotted keyed by body id, (3) accelerations are recomputed at the new
positions, (4) every body whose id is in the snapshot receives the velocity
correction `½·(a_old + a_new)·dt`, and bodies not in the snapshot receive no
correction; nothing else in the engine state changes. -/
def VerletClaim (e : SimulationEngine) : Prop :=
  let D := e.bodies.map (verletDrift e.dt)
  let snap := (e.bodies.filter (fun b => !b.merged)).map (fun b => (b.id, b.acc))
  (verletStep e).G = e.G ∧ (verletStep e).dt = e.dt ∧
  (verletStep e).time_elapsed = e.time_elapsed ∧
  (verletStep e).integrator_type = e.integrator_type ∧
  (verletStep e).collision_model = e.collision_model ∧
  (verletStep e).next_body_id = e.next_body_id ∧
  ∀ i, (verletStep e).bodies.get? i = (D.get? i).map (fun b =>
    if b.merged then b
    else
      let aNew := calcAccBody e.G D i b
      match dictGet snap b.id with
      | some aOld => { b with acc := aNew, vel := b.vel + (0.5 * e.dt) • (aOld + aNew) }
      | none => { b with acc := aNew })

lemma verletDrift_merged (dt : ℝ) (b : SimBody) : (verletDrift dt b).merged = b.merged := by
  rw [verletDrift]; by_cases h : b.merged <;> simp [h]

lemma verletDrift_id (dt : ℝ) (b : SimBody) : (verletDrift dt b).id = b.id := by
  rw [verletDrift]; by_cases h : b.merged <;> simp [h]

lemma verletDrift_acc (dt : ℝ) (b : SimBody) : (verletDrift dt b).acc = b.acc := by
  rw [verletDrift]; by_cases h : b.merged <;> simp [h]

/-- The acceleration snapshot taken after the drift equals the snapshot of
the pre-step accelerations: drifting changes neither ids, accelerations nor
merged flags. -/
lemma snap_after_drift (dt : ℝ) (bs : List SimBody) :
    ((bs.map (verletDrift dt)).filter (fun b => !b.merged)).map (fun b => (b.id, b.acc))
      = (bs.filter (fun b => !b.merged)).map (fun b => (b.id, b.acc)) := by
  rw [List.filter_map]
  rw [List.map_map]
  have h1 : ((fun b : SimBody => !b.merged) ∘ verletDrift dt) = fun b => !b.merged := by
    funext b; simp [Function.comp, verletDrift_merged]
  rw [h1]
  apply List.map_congr_left
  intro b _
  simp [Function.comp, verletDrift_id, verletDrift_acc]

/-- C2: one velocity-Verlet step is drift with the pre-step acceleration,
snapshot by id, global recompute, then half-kick from the snapshot. -/
theorem verletStep_meets_claim (e : SimulationEngine)
    (h : (e.bodies.filter (fun b => !b.merged)).isEmpty = false) :
    VerletClaim e := by
  rw [VerletClaim]
  have hstep : verletStep e =
      { calculateAccelerations { e with bodies := e.bodies.map (verletDrift e.dt) } with
        bodies := (calculateAccelerations
            { e with bodies := e.bodies.map (verletDrift e.dt) }).bodies.map (fun b =>
          if b.merged then b
          else match dictGet (((e.bodies.map (verletDrift e.dt)).filter
              (fun b => !b.merged)).map (fun b => (b.id, b.acc))) b.id with
            | some aOld => { b with vel := b.vel + (0.5 * e.dt) • (aOld + b.acc) }
            | none => b) } := by
    rw [verletStep, if_neg (by simp [h])]
  refine ⟨by rw [hstep]; rfl, by rw [hstep]; rfl, by rw [hstep]; rfl,
    by rw [hstep]; rfl, by rw [hstep]; rfl, by rw [hstep]; rfl, ?_⟩
  intro i
  rw [hstep]
  show ((calculateAccelerations
      { e with bodies := e.bodies.map (verletDrift e.dt) }).bodies.map _).get? i = _
  rw [List.get?_map, calculateAccelerations]
  show (Option.map _ (((e.bodies.map (verletDrift e.dt)).enum.map _).get? i)) = _
  rw [List.get?_map, List.get?_enum, snap_after_drift]
  cases hD : (e.bodies.map (verletDrift e.dt)).get? i with
  | none => rfl
  | some b =>
    simp only [Option.map_some]
    by_cases hm : b.merged
    · simp [hm]
    · cases hlk : dictGet ((e.bodies.filter (fun b => !b.merged)).map
          (fun b => (b.id, b.acc))) b.id with
      | none => simp [hm, hlk]
      | some aOld => simp [hm, hlk]

/-- The per-body snapshot dict of `_rk4_step`:
`{'id': ..., 'pos': pos.copy(), 'mass': ..., 'radius': ...}`. -/
structure BodyState where
  id : Int
  pos : Vec3
  mass : ℝ
  radius : ℝ

/-- Builds the frozen snapshot record of one body. -/
def mkState (b : SimBody) : BodyState := ⟨b.id, b.pos, b.mass, b.radius⟩

/-- SimulationEngine._get_accel_for_rk4_substep, with the source's local
variables `r_vec`, `r_mag_sq`, `r_mag` inlined: gravitational acceleration at
a trial position due to the frozen snapshot states, with the same 1e-18
squared-separation skip as the force evaluator. -/
def getAccelForRk4Substep (G : ℝ) (tempPos : Vec3) (others : List BodyState) : Vec3 :=
  others.foldl (fun acc o =>
    if dot (o.pos - tempPos) (o.pos - tempPos) < 1e-18 then acc
    else acc + (G * o.mass / dot (o.pos - tempPos) (o.pos - tempPos)) •
      sdiv (o.pos - tempPos) (Real.sqrt (dot (o.pos - tempPos) (o.pos - tempPos)))) 0

/-- SimulationEngine._rk4_step_for_body: the four classical RK4 stages for a
single body against the frozen background `others`; only `pos` and `vel` of
the body change. -/
def rk4StepForBody (G dt : ℝ) (body : SimBody) (others : List BodyState) : SimBody :=
  let k1p := body.vel
  let k1v := body.acc
  let acc_k2 := getAccelForRk4Substep G (body.pos + (0.5 * dt) • k1p) others
  let k2p := body.vel + (0.5 * dt) • k1v
  let k2v := acc_k2
  let acc_k3 := getAccelForRk4Substep G (body.pos + (0.5 * dt) • k2p) others
  let k3p := body.vel + (0.5 * dt) • k2v
  let k3v := acc_k3
  let acc_k4 := getAccelForRk4Substep G (body.pos + dt • k3p) others
  let k4p := body.vel + dt • k3v
  let k4v := acc_k4
  { body with
    pos := body.pos + (dt / 6) • (k1p + (2 : ℝ) • k2p + (2 : ℝ) • k3p + k4p),
    vel := body.vel + (dt / 6) • (k1v + (2 : ℝ) • k2v + (2 : ℝ) • k3v + k4v) }

/-- Number of non-merged bodies strictly before index `i`: the position a
non-merged body at index `i` occupies in the filtered active list. -/
def countActive (l : List SimBody) (i : ℕ) : ℕ :=
  ((l.take i).filter (fun b => !b.merged)).length

/-- In-place mutation of each active body by `_rk4_step`'s
`for i, body in enumerate(active_bodies)` loop: merged bodies stay, the k-th
active body (counting from `s`) becomes `f k` of itself. -/
def mapActive (f : ℕ → SimBody → SimBody) : List SimBody → ℕ → List SimBody
  | [], _ => []
  | b :: rest, k =>
      if b.merged then b :: mapActive f rest k else f k b :: mapActive f rest (k + 1)

/-- SimulationEngine._rk4_step: no-op without active bodies; otherwise
recompute a(t), snapshot every other active body per active body, advance
each active body independently through the four stages, then recompute
a(t+dt). -/
def rk4Step (e : SimulationEngine) : SimulationEngine :=
  if (e.bodies.filter (fun b => !b.merged)).isEmpty then e
  else
    let e1 := calculateAccelerations e
    let active1 := e1.bodies.filter (fun b => !b.merged)
    calculateAccelerations
      { e1 with
        bodies := mapActive (fun k b =>
          rk4StepForBody e.G e.dt b ((active1.eraseIdx k).map mkState)) e1.bodies 0 }

/-- The substep acceleration is the spec's sum over the frozen states with
the 1e-18 squared-separation skip. -/
lemma getAccel_eq_sum (G : ℝ) (p : Vec3) (others : List BodyState) :
    getAccelForRk4Substep G p others
      = (others.map (fun o =>
          if ¬ dot (o.pos - p) (o.pos - p) < 1e-18 then
            (G * o.mass / (vnorm (o.pos - p)) ^ 3) • (o.pos - p)
          else 0)).sum := by
  rw [getAccelForRk4Substep,
    foldl_if_add (fun o : BodyState => dot (o.pos - p) (o.pos - p) < 1e-18)
      (fun o => (G * o.mass / dot (o.pos - p) (o.pos - p)) •
        sdiv (o.pos - p) (Real.sqrt (dot (o.pos - p) (o.pos - p)))), zero_add]
  congr 1
  apply List.map_congr_left
  intro o _
  by_cases hsep : dot (o.pos - p) (o.pos - p) < 1e-18
  · simp [hsep]
  · simp only [if_neg hsep, if_pos hsep]
    exact contrib_eq_spec G o.mass _ hsep

lemma countActive_cons_succ (b : SimBody) (rest : List SimBody) (n : ℕ) :
    countActive (b :: rest) (n + 1)
      = (if b.merged then 0 else 1) + countActive rest n := by
  by_cases hm : b.merged <;>
    simp [countActive, List.take_succ_cons, List.filter_cons, hm, Nat.add_comm]

lemma mapActive_get? (f : ℕ → SimBody → SimBody) :
    ∀ (l : List SimBody) (s i : ℕ),
      (mapActive f l s).get? i
        = (l.get? i).map (fun b => if b.merged then b else f (s + countActive l i) b) := by
  intro l
  induction l with
  | nil => intro s i; simp [mapActive]
  | cons b rest ih =>
    intro s i
    cases i with
    | zero =>
      by_cases hm : b.merged <;> simp [mapActive, hm, countActive]
    | succ n =>
      by_cases hm : b.merged
      · rw [mapActive, if_pos hm]
        show (mapActive f rest s).get? n = _
        rw [ih s n, List.get?_cons_succ, countActive_cons_succ, if_pos hm, Nat.zero_add]
      · rw [mapActive, if_neg hm]
        show (mapActive f rest (s + 1)).get? n = _
        rw [ih (s + 1) n, List.get?_cons_succ, countActive_cons_succ, if_neg hm]
        have : s + 1 + countActive rest n = s + (1 + countActive rest n) :=
          Nat.add_assoc s 1 _
        rw [this]

/-- What claim C3 says one RK4 step does: a global recompute of a(t) (so k1's
velocity derivative is the true current acceleration), a frozen snapshot of
every other active body, four classical stages per body against the frozen
background, and a final global recompute at the new positions; merged bodies
are untouched. -/
def Rk4Claim (e : SimulationEngine) : Prop :=
  let A := calculateAccelerations e
  let act := A.bodies.filter (fun b => !b.merged)
  (∀ (p : Vec3) (others : List BodyState),
      getAccelForRk4Substep e.G p others
        = (others.map (fun o =>
            if ¬ dot (o.pos - p) (o.pos - p) < 1e-18 then
              (e.G * o.mass / (vnorm (o.pos - p)) ^ 3) • (o.pos - p)
            else 0)).sum) ∧
  (∀ (b : SimBody) (others : List BodyState),
      rk4StepForBody e.G e.dt b others =
        let k1p := b.vel
        let k1v := b.acc
        let k2v := getAccelForRk4Substep e.G (b.pos + (0.5 * e.dt) • k1p) others
        let k2p := b.vel + (0.5 * e.dt) • k1v
        let k3v := getAccelForRk4Substep e.G (b.pos + (0.5 * e.dt) • k2p) others
        let k3p := b.vel + (0.5 * e.dt) • k2v
        let k4v := getAccelForRk4Substep e.G (b.pos + e.dt • k3p) others
        let k4p := b.vel + e.dt • k3v
        { b with
          pos := b.pos + (e.dt / 6) • (k1p + (2 : ℝ) • k2p + (2 : ℝ) • k3p + k4p),
          vel := b.vel + (e.dt / 6) • (k1v + (2 : ℝ) • k2v + (2 : ℝ) • k3v + k4v) }) ∧
  ∃ L2, rk4Step e = calculateAccelerations { A with bodies := L2 } ∧
    ∀ i, L2.get? i = (A.bodies.get? i).map (fun b =>
      if b.merged then b
      else rk4StepForBody e.G e.dt b
        ((act.eraseIdx (countActive A.bodies i)).map mkState))

/-- C3: one RK4 step recomputes a(t), freezes the other active bodies'
states, runs the four per-body stages against the frozen background, and
recomputes accelerations at the new positions. -/
theorem rk4Step_meets_claim (e : SimulationEngine)
    (h : (e.bodies.filter (fun b => !b.merged)).isEmpty = false) :
    Rk4Claim e := by
  refine ⟨fun p others => getAccel_eq_sum e.G p others, fun b others => rfl, ?_⟩
  refine ⟨mapActive (fun k b =>
      rk4StepForBody e.G e.dt b
        ((((calculateAccelerations e).bodies.filter (fun b => !b.merged)).eraseIdx k).map
          mkState)) (calculateAccelerations e).bodies 0, ?_, ?_⟩
  · rw [rk4Step, if_neg (by simp [h])]
  · intro i
    rw [mapActive_get? _ _ 0 i]
    simp only [Nat.zero_add]

/-- The product body built inside `_handle_collisions_merge` on overlap of
`b1` and `b2`: combined mass, momentum-conserving velocity, center-of-mass
position, volume-adding radius, name derived from both inputs, color from
the heavier input, created through the SimBody constructor (fresh id, zero
acceleration, empty trail, merged flag false; the constructor's positivity
validation cannot fire for positive input masses and radii and is modelled
by validity hypotheses). -/
def mergedBodyOf (nid : Int) (b1 b2 : SimBody) : SimBody :=
  mkBody nid ("Merged(" ++ b1.name ++ "+" ++ b2.name ++ ")")
    (b1.mass + b2.mass)
    (sdiv (b1.mass • b1.pos + b2.mass • b2.pos) (b1.mass + b2.mass))
    (sdiv (b1.mass • b1.vel + b2.mass • b2.vel) (b1.mass + b2.mass))
    ((b1.radius ^ 3 + b2.radius ^ 3) ^ ((1 : ℝ) / 3))
    (if b1.mass ≥ b2.mass then b1.color else b2.color)

/-- The mutable state of the merge scan: the body list (whose merged flags
are being set), the `bodies_to_remove_indices` set, the selected (i, j)
pairs in selection order, the `new_bodies_to_add` list, and the engine's
`next_body_id` counter. -/
structure MergeAcc where
  bodies : List SimBody
  removed : List ℕ
  pairs : List (ℕ × ℕ)
  newBodies : List SimBody
  nextId : Int

/-- The indices touched by the selected pairs. -/
def selOf (ps : List (ℕ × ℕ)) : List ℕ := ps.bind (fun p => [p.1, p.2])

/-- The inner j-loop of `_handle_collisions_merge` for outer body `b1` at
index `i`: scan the remaining indices in ascending order, skip removed or
merged bodies, and on the first overlap create the product body, flag both
originals, record both indices and stop (the `break`). -/
def mergeInner (b1 : SimBody) (i : ℕ) : List ℕ → MergeAcc → MergeAcc
  | [], st => st
  | j :: js, st =>
    match st.bodies.get? j with
    | none => mergeInner b1 i js st
    | some b2 =>
      if j ∈ st.removed ∨ b2.merged = true then mergeInner b1 i js st
      else if vnorm (b1.pos - b2.pos) < b1.radius + b2.radius then
        { bodies := (st.bodies.set i { b1 with merged := true }).set j
            { b2 with merged := true },
          removed := i :: j :: st.removed,
          pairs := st.pairs ++ [(i, j)],
          newBodies := st.newBodies ++ [mergedBodyOf st.nextId b1 b2],
          nextId := st.nextId + 1 }
      else mergeInner b1 i js st

/-- The outer i-loop of `_handle_collisions_merge`. -/
def mergeOuter : List ℕ → MergeAcc → MergeAcc
  | [], st => st
  | i :: is, st =>
    match st.bodies.get? i with
    | none => mergeOuter is st
    | some b1 =>
      if i ∈ st.removed ∨ b1.merged = true then mergeOuter is st
      else mergeOuter is
        (mergeInner b1 i (List.range' (i + 1) (st.bodies.length - (i + 1))) st)

/-- The scan state at entry of `_handle_collisions_merge`. -/
def scanStart (bs : List SimBody) (nid : Int) : MergeAcc := ⟨bs, [], [], [], nid⟩

/-- The whole scan of `_handle_collisions_merge` over ascending (i, j). -/
def mergeScan (e : SimulationEngine) : MergeAcc :=
  mergeOuter (List.range e.bodies.length) (scanStart e.bodies e.next_body_id)

/-- SimulationEngine._handle_collisions_merge: run the scan, then rebuild
`self.bodies` by dropping every merged-flagged body and appending the new
product bodies. -/
def handleCollisionsMerge (e : SimulationEngine) : SimulationEngine :=
  { e with
    bodies := (mergeScan e).bodies.filter (fun b => !b.merged) ++ (mergeScan e).newBodies,
    next_body_id := (mergeScan e).nextId }

lemma get?_set_self {α : Type*} {l : List α} {i : ℕ} (a : α) (h : i < l.length) :
    (l.set i a).get? i = some a := by
  rw [List.get?_set, if_pos rfl]
  cases hl : l.get? i with
  | none => rw [List.get?_eq_none] at hl; omega
  | some b => rfl

lemma get?_set_ne {α : Type*} {l : List α} {i k : ℕ} (a : α) (h : i ≠ k) :
    (l.set i a).get? k = l.get? k := by
  rw [List.get?_set, if_neg h]

lemma selOf_append_pair (ps : List (ℕ × ℕ)) (i j : ℕ) :
    selOf (ps ++ [(i, j)]) = selOf ps ++ [i, j] := by
  simp [selOf]

lemma mem_selOf {ps : List (ℕ × ℕ)} {k : ℕ} :
    k ∈ selOf ps ↔ ∃ p ∈ ps, k = p.1 ∨ k = p.2 := by
  simp [selOf]

/-- Invariant of the merge scan relative to the body list `bs0` and
next-body-id `id0` at scan entry: the body list keeps its length and differs
from the original list only in that every selected index is flagged merged;
selected indices are distinct and coincide with the removed-indices set;
every selected pair is an ascending in-range pair of originally non-merged
overlapping bodies; the new-body list contains, in order, exactly the
product body of each selected pair with sequential fresh ids. -/
structure ScanInv (bs0 : List SimBody) (id0 : Int) (st : MergeAcc) : Prop where
  len : st.bodies.length = bs0.length
  untouched : ∀ k, k ∉ selOf st.pairs → st.bodies.get? k = bs0.get? k
  flagged : ∀ k, k ∈ selOf st.pairs → ∃ b, bs0.get? k = some b ∧ b.merged = false ∧
      st.bodies.get? k = some { b with merged := true }
  selNodup : (selOf st.pairs).Nodup
  removedEq : ∀ k, k ∈ st.removed ↔ k ∈ selOf st.pairs
  pairsOk : ∀ p ∈ st.pairs, p.1 < p.2 ∧ p.2 < bs0.length ∧
      ∃ b1 b2, bs0.get? p.1 = some b1 ∧ bs0.get? p.2 = some b2 ∧
        b1.merged = false ∧ b2.merged = false ∧
        vnorm (b1.pos - b2.pos) < b1.radius + b2.radius
  lenNew : st.newBodies.length = st.pairs.length
  nextEq : st.nextId = id0 + st.pairs.length
  newOk : ∀ k p, st.pairs.get? k = some p →
      ∃ b1 b2, bs0.get? p.1 = some b1 ∧ bs0.get? p.2 = some b2 ∧
        st.newBodies.get? k = some (mergedBodyOf (id0 + (k : Int)) b1 b2)

lemma scanStart_inv (bs : List SimBody) (nid : Int) :
    ScanInv bs nid (scanStart bs nid) :=
  ⟨rfl, fun _ _ => rfl, fun k hk => by simp [scanStart, selOf] at hk,
    by simp [scanStart, selOf], fun k => by simp [scanStart, selOf],
    fun p hp => by simp [scanStart] at hp, rfl, by simp [scanStart],
    fun k p hkp => by simp [scanStart] at hkp⟩

lemma mergeInner_inv {bs0 : List SimBody} {id0 : Int} {b1 : SimBody} {i : ℕ} :
    ∀ (js : List ℕ) (st : MergeAcc), ScanInv bs0 id0 st →
      st.bodies.get? i = some b1 → b1.merged = false → i ∉ st.removed →
      (∀ j ∈ js, i < j ∧ j < bs0.length) →
      ScanInv bs0 id0 (mergeInner b1 i js st) := by
  intro js
  induction js with
  | nil => intro st inv _ _ _ _; exact inv
  | cons j js ih =>
    intro st inv hb1 hm1 hr1 hjs
    obtain ⟨hij, hjn⟩ := hjs j (List.mem_cons_self _ _)
    have hjs' : ∀ j' ∈ js, i < j' ∧ j' < bs0.length :=
      fun j' hj' => hjs j' (List.mem_cons_of_mem _ hj')
    rw [mergeInner]
    split
    · exact ih st inv hb1 hm1 hr1 hjs'
    · rename_i b2 hj
      by_cases hskip : j ∈ st.removed ∨ b2.merged = true
      · rw [if_pos hskip]
        exact ih st inv hb1 hm1 hr1 hjs'
      · rw [if_neg hskip]
        push_neg at hskip
        obtain ⟨hjr, hm2'⟩ := hskip
        have hm2 : b2.merged = false := by
          cases hb : b2.merged
          · rfl
          · exact absurd hb hm2'
        by_cases hcol : vnorm (b1.pos - b2.pos) < b1.radius + b2.radius
        swap
        · rw [if_neg hcol]
          exact ih st inv hb1 hm1 hr1 hjs'
        rw [if_pos hcol]
        have hisel : i ∉ selOf st.pairs := fun h => hr1 ((inv.removedEq i).mpr h)
        have hjsel : j ∉ selOf st.pairs := fun h => hjr ((inv.removedEq j).mpr h)
        have hb1' : bs0.get? i = some b1 := (inv.untouched i hisel).symm.trans hb1
        have hb2' : bs0.get? j = some b2 := (inv.untouched j hjsel).symm.trans hj
        have hin : i < bs0.length := by
          by_contra hle
          push_neg at hle
          rw [List.get?_eq_none.mpr hle] at hb1'
          exact Option.noConfusion hb1'
        have hne : i ≠ j := Nat.ne_of_lt hij
        refine ⟨?_, ?_, ?_, ?_, ?_, ?_, ?_, ?_, ?_⟩
        · simpa using inv.len
        · intro k hk
          rw [selOf_append_pair] at hk
          simp only [List.mem_append, List.mem_cons, List.not_mem_nil, or_false] at hk
          push_neg at hk
          obtain ⟨hk1, hk2, hk3⟩ := hk
          show ((st.bodies.set i _).set j _).get? k = _
          rw [get?_set_ne _ (fun h => hk3 h.symm), get?_set_ne _ (fun h => hk2 h.symm)]
          exact inv.untouched k hk1
        · intro k hk
          rw [selOf_append_pair] at hk
          simp only [List.mem_append, List.mem_cons, List.not_mem_nil, or_false] at hk
          rcases hk with hk | hk | hk
          · obtain ⟨b, hb, hbm, hst⟩ := inv.flagged k hk
            refine ⟨b, hb, hbm, ?_⟩
            show ((st.bodies.set i _).set j _).get? k = _
            rw [get?_set_ne _ (fun h => by subst h; exact hjsel hk),
              get?_set_ne _ (fun h => by subst h; exact hisel hk)]
            exact hst
          · refine ⟨b1, by rw [hk]; exact hb1', hm1, ?_⟩
            show ((st.bodies.set i _).set j _).get? k = _
            rw [hk, get?_set_ne _ (Ne.symm hne),
              get?_set_self _ (by rw [inv.len]; exact hin)]
          · refine ⟨b2, by rw [hk]; exact hb2', hm2, ?_⟩
            show ((st.bodies.set i _).set j _).get? k = _
            rw [hk, get?_set_self _ (by simpa [inv.len] using hjn)]
        · show (selOf (st.pairs ++ [(i, j)])).Nodup
          rw [selOf_append_pair, List.nodup_append]
          refine ⟨inv.selNodup, by simp [hne], ?_⟩
          intro k hk
          simp only [List.mem_cons, List.not_mem_nil, or_false]
          rintro (h | h)
          · subst h; exact hisel hk
          · subst h; exact hjsel hk
        · intro k
          show k ∈ i :: j :: st.removed ↔ _
          rw [selOf_append_pair]
          simp only [List.mem_cons, List.mem_append, List.mem_singleton]
          rw [inv.removedEq k]
          tauto
        · intro p hp
          rw [List.mem_append] at hp
          rcases hp with hp | hp
          · exact inv.pairsOk p hp
          · rw [List.mem_singleton] at hp
            subst hp
            exact ⟨hij, hjn, b1, b2, hb1', hb2', hm1, hm2, hcol⟩
        · show (st.newBodies ++ _).length = (st.pairs ++ _).length
          simp [inv.lenNew]
        · show st.nextId + 1 = id0 + ((st.pairs ++ [(i, j)]).length : Int)
          rw [inv.nextEq]
          simp only [List.length_append, List.length_singleton]
          push_cast
          ring
        · intro k p hkp
          have hklt : k < st.pairs.length + 1 := by
            by_contra hle
            push_neg at hle
            rw [List.get?_eq_none.mpr (by simpa using hle)] at hkp
            exact Option.noConfusion hkp
          rcases Nat.lt_succ_iff_lt_or_eq.mp hklt with hk | hk
          · rw [List.get?_append hk] at hkp
            obtain ⟨c1, c2, hc1, hc2, hnb⟩ := inv.newOk k p hkp
            refine ⟨c1, c2, hc1, hc2, ?_⟩
            rw [List.get?_append (by rw [inv.lenNew]; exact hk)]
            exact hnb
          · subst hk
            rw [List.get?_concat_length] at hkp
            cases hkp
            refine ⟨b1, b2, hb1', hb2', ?_⟩
            have : st.newBodies.length = st.pairs.length := inv.lenNew
            rw [← this, List.get?_concat_length, inv.nextEq, this]

lemma mergeOuter_inv {bs0 : List SimBody} {id0 : Int} :
    ∀ (is : List ℕ) (st : MergeAcc), ScanInv bs0 id0 st →
      ScanInv bs0 id0 (mergeOuter is st) := by
  intro is
  induction is with
  | nil => intro st inv; exact inv
  | cons i is ih =>
    intro st inv
    rw [mergeOuter]
    split
    · exact ih st inv
    · rename_i b1 hb1
      by_cases hskip : i ∈ st.removed ∨ b1.merged = true
      · rw [if_pos hskip]
        exact ih st inv
      · rw [if_neg hskip]
        push_neg at hskip
        obtain ⟨hr1, hm1'⟩ := hskip
        have hm1 : b1.merged = false := by
          cases hb : b1.merged
          · rfl
          · exact absurd hb hm1'
        refine ih _ (mergeInner_inv _ st inv hb1 hm1 hr1 ?_)
        intro j hj
        rw [List.mem_range'] at hj
        obtain ⟨c, hc, rfl⟩ := hj
        constructor <;> [omega; skip]
        have := inv.len
        omega

/-- The merge scan of an engine satisfies the scan invariant. -/
lemma mergeScan_inv (e : SimulationEngine) :
    ScanInv e.bodies e.next_body_id (mergeScan e) :=
  mergeOuter_inv _ _ (scanStart_inv e.bodies e.next_body_id)

/-- After the scan, the body list is the original list with exactly the
selected indices flagged merged. -/
lemma scanBodies_eq (e : SimulationEngine) :
    (mergeScan e).bodies = e.bodies.enum.map (fun kb =>
      if kb.1 ∈ selOf (mergeScan e).pairs then { kb.2 with merged := true } else kb.2) := by
  have inv := mergeScan_inv e
  rw [List.ext_get?_iff]
  intro n
  rw [List.get?_map, List.get?_enum, Option.map_map]
  by_cases hn : n ∈ selOf (mergeScan e).pairs
  · obtain ⟨b, hb, _, hst⟩ := inv.flagged n hn
    rw [hst, hb]
    simp [Function.comp, hn]
  · rw [inv.untouched n hn]
    cases hb : e.bodies.get? n <;> simp [Function.comp, hn]

/-- The body list produced by one merge pass: bodies at selected indices and
previously merged-flagged bodies are dropped, every other body survives
unchanged in order, and the product bodies are appended. -/
lemma mergePass_bodies (e : SimulationEngine) :
    (handleCollisionsMerge e).bodies
      = (e.bodies.enum.filter (fun kb =>
          !kb.2.merged && !(decide (kb.1 ∈ selOf (mergeScan e).pairs)))).map Prod.snd
        ++ (mergeScan e).newBodies := by
  show (mergeScan e).bodies.filter _ ++ _ = _
  congr 1
  rw [scanBodies_eq e, List.filter_map]
  rw [List.filter_congr (l := e.bodies.enum)
    (q := fun kb => !kb.2.merged && !(decide (kb.1 ∈ selOf (mergeScan e).pairs))) ?_]
  · apply List.map_congr_left
    intro kb hkb
    rw [List.mem_filter] at hkb
    have hsel : ¬ kb.1 ∈ selOf (mergeScan e).pairs := by
      have := hkb.2
      simp only [Bool.and_eq_true, Bool.not_eq_true', decide_eq_false_iff_not] at this
      exact this.2
    simp [Function.comp, hsel]
  · intro kb _
    by_cases h : kb.1 ∈ selOf (mergeScan e).pairs <;> simp [Function.comp, h]

/-- What claim C4 says one merge pass does: each scan-selected pair of
overlapping active bodies produces exactly one appended product body with
combined mass, momentum-conserving velocity, center-of-mass position,
volume-adding radius and a fresh id; the two originals are flagged merged
and dropped from the collection; no body merges twice in one pass; all
other active bodies survive untouched. -/
def MergeClaim (e : SimulationEngine) : Prop :=
  let P := (mergeScan e).pairs
  let N := (mergeScan e).newBodies
  N.length = P.length ∧
  (selOf P).Nodup ∧
  (∀ k i j, P.get? k = some (i, j) →
    i < j ∧
    ∃ b1 b2, e.bodies.get? i = some b1 ∧ e.bodies.get? j = some b2 ∧
      b1.merged = false ∧ b2.merged = false ∧
      vnorm (b1.pos - b2.pos) < b1.radius + b2.radius ∧
      ∃ nb, N.get? k = some nb ∧
        nb.mass = b1.mass + b2.mass ∧
        nb.vel = sdiv (b1.mass • b1.vel + b2.mass • b2.vel) (b1.mass + b2.mass) ∧
        nb.pos = sdiv (b1.mass • b1.pos + b2.mass • b2.pos) (b1.mass + b2.mass) ∧
        nb.radius = (b1.radius ^ 3 + b2.radius ^ 3) ^ ((1 : ℝ) / 3) ∧
        nb.id = e.next_body_id + (k : Int) ∧
        nb.merged = false ∧
        (∀ b ∈ e.bodies, b.id ≠ nb.id) ∧
        (mergeScan e).bodies.get? i = some { b1 with merged := true } ∧
        (mergeScan e).bodies.get? j = some { b2 with merged := true }) ∧
  (handleCollisionsMerge e).bodies
    = (e.bodies.enum.filter (fun kb =>
        !kb.2.merged && !(decide (kb.1 ∈ selOf P)))).map Prod.snd ++ N ∧
  (handleCollisionsMerge e).next_body_id = e.next_body_id + (P.length : Int)

/-- C4: the merge pass produces exactly one momentum-conserving product body
per selected overlapping pair, flags and removes the two originals, merges
each body at most once per pass, and leaves uninvolved bodies untouched. -/
theorem mergePass_meets_claim (e : SimulationEngine)
    (hid : ∀ b ∈ e.bodies, b.id < e.next_body_id) : MergeClaim e := by
  have inv := mergeScan_inv e
  refine ⟨inv.lenNew, inv.selNodup, ?_, mergePass_bodies e, ?_⟩
  · intro k i j hk
    have hmem : (i, j) ∈ (mergeScan e).pairs := List.get?_mem hk
    obtain ⟨hij, hjn, b1, b2, hb1, hb2, hm1, hm2, hcol⟩ := inv.pairsOk (i, j) hmem
    obtain ⟨c1, c2, hc1, hc2, hnb⟩ := inv.newOk k (i, j) hk
    rw [hb1] at hc1
    rw [hb2] at hc2
    cases hc1
    cases hc2
    refine ⟨hij, b1, b2, hb1, hb2, hm1, hm2, hcol,
      mergedBodyOf (e.next_body_id + (k : Int)) b1 b2, hnb, rfl, rfl, rfl, rfl, rfl, rfl,
      ?_, ?_, ?_⟩
    · intro b hb
      have h1 : b.id < e.next_body_id := hid b hb
      have h2 : (0 : Int) ≤ (k : Int) := Int.ofNat_nonneg k
      show b.id ≠ (mergedBodyOf (e.next_body_id + (k : Int)) b1 b2).id
      show b.id ≠ e.next_body_id + (k : Int)
      omega
    · obtain ⟨b, hb, _, hst⟩ := inv.flagged i
        (mem_selOf.mpr ⟨(i, j), hmem, Or.inl rfl⟩)
      rw [hb1] at hb
      cases hb
      exact hst
    · obtain ⟨b, hb, _, hst⟩ := inv.flagged j
        (mem_selOf.mpr ⟨(i, j), hmem, Or.inr rfl⟩)
      rw [hb2] at hb
      cases hb
      exact hst
  · show (mergeScan e).nextId = _
    rw [inv.nextEq]

/-- SimulationEngine.add_new_body: construct a body carrying the fresh id,
append it and bump the counter.  The source raises (and leaves the engine
unchanged) when the SimBody constructor rejects non-positive mass or radius;
the failing branch is therefore modelled as the identity. -/
def addNewBody (name : String) (mass : ℝ) (pos vel : Vec3) (radius : ℝ)
    (color : String) (e : SimulationEngine) : SimulationEngine :=
  if 0 < mass ∧ 0 < radius then
    { e with
      bodies := e.bodies ++ [mkBody e.next_body_id name mass pos vel radius color],
      next_body_id := e.next_body_id + 1 }
  else e

/-- SimulationEngine.add_body_instance: reassign the incoming body's id to
`next_body_id` when it collides with an existing id, append, and raise the
counter to `max next_body_id (id + 1)`. -/
def addBodyInstance (b : SimBody) (e : SimulationEngine) : SimulationEngine :=
  let b1 := if b.id ∈ e.bodies.map (fun x => x.id) then { b with id := e.next_body_id } else b
  { e with bodies := e.bodies ++ [b1], next_body_id := max e.next_body_id (b1.id + 1) }

/-- SimulationEngine.clear_bodies. -/
def clearBodies (e : SimulationEngine) : SimulationEngine :=
  { e with bodies := [], next_body_id := 0 }

/-- The body-management operations of claim C6. -/
inductive EngineOp
  | addNew (name : String) (mass : ℝ) (pos vel : Vec3) (radius : ℝ) (color : String)
  | addInstance (b : SimBody)
  | mergePassOp
  | clearAll

/-- Apply one operation to the engine. -/
def applyOp (e : SimulationEngine) : EngineOp → SimulationEngine
  | .addNew name mass pos vel radius color => addNewBody name mass pos vel radius color e
  | .addInstance b => addBodyInstance b e
  | .mergePassOp => handleCollisionsMerge e
  | .clearAll => clearBodies e

/-- Apply a sequence of operations to the engine. -/
def runOps (ops : List EngineOp) (e : SimulationEngine) : SimulationEngine :=
  ops.foldl applyOp e

/-- The id-uniqueness invariant of claim C6: stored ids are pairwise
distinct and all below `next_body_id`. -/
def EngineInv (e : SimulationEngine) : Prop :=
  (e.bodies.map (fun b => b.id)).Nodup ∧ ∀ b ∈ e.bodies, b.id < e.next_body_id

lemma engineInv_addNew (e : SimulationEngine) (h : EngineInv e)
    (name : String) (mass : ℝ) (pos vel : Vec3) (radius : ℝ) (color : String) :
    EngineInv (addNewBody name mass pos vel radius color e) := by
  obtain ⟨hnd, hlt⟩ := h
  rw [addNewBody]
  split
  · constructor
    · show ((e.bodies ++ [_]).map _).Nodup
      rw [List.map_append, List.nodup_append]
      refine ⟨hnd, by simp, ?_⟩
      intro x hx
      rw [List.mem_map] at hx
      obtain ⟨b, hb, rfl⟩ := hx
      have := hlt b hb
      simp only [List.map_cons, List.map_nil, List.mem_cons, List.not_mem_nil, or_false,
        mkBody]
      omega
    · intro b hb
      rw [List.mem_append] at hb
      rcases hb with hb | hb
      · have := hlt b hb
        show b.id < e.next_body_id + 1
        omega
      · rw [List.mem_singleton] at hb
        subst hb
        show e.next_body_id < e.next_body_id + 1
        omega
  · exact ⟨hnd, hlt⟩

lemma engineInv_addInstance (e : SimulationEngine) (h : EngineInv e) (b : SimBody) :
    EngineInv (addBodyInstance b e) := by
  obtain ⟨hnd, hlt⟩ := h
  rw [addBodyInstance]
  by_cases hc : b.id ∈ e.bodies.map (fun x => x.id)
  · rw [if_pos hc]
    constructor
    · rw [List.map_append, List.nodup_append]
      refine ⟨hnd, by simp, ?_⟩
      intro x hx
      rw [List.mem_map] at hx
      obtain ⟨c, hcmem, rfl⟩ := hx
      have := hlt c hcmem
      simp only [List.map_cons, List.map_nil, List.mem_cons, List.not_mem_nil, or_false]
      omega
    · intro c hcmem
      show c.id < max e.next_body_id (e.next_body_id + 1)
      have h1 : e.next_body_id ≤ max e.next_body_id (e.next_body_id + 1) := le_max_left _ _
      have h2 : e.next_body_id + 1 ≤ max e.next_body_id (e.next_body_id + 1) :=
        le_max_right _ _
      rw [List.mem_append] at hcmem
      rcases hcmem with hcmem | hcmem
      · have := hlt c hcmem
        omega
      · rw [List.mem_singleton] at hcmem
        rw [hcmem]
        show e.next_body_id < max e.next_body_id (e.next_body_id + 1)
        omega
  · rw [if_neg hc]
    constructor
    · rw [List.map_append, List.nodup_append]
      refine ⟨hnd, by simp, ?_⟩
      intro x hx
      simp only [List.map_cons, List.map_nil, List.mem_cons, List.not_mem_nil, or_false]
      intro hxb
      subst hxb
      exact hc hx
    · intro c hcmem
      show c.id < max e.next_body_id (b.id + 1)
      have h1 : e.next_body_id ≤ max e.next_body_id (b.id + 1) := le_max_left _ _
      have h2 : b.id + 1 ≤ max e.next_body_id (b.id + 1) := le_max_right _ _
      rw [List.mem_append] at hcmem
      rcases hcmem with hcmem | hcmem
      · have := hlt c hcmem
        omega
      · rw [List.mem_singleton] at hcmem
        rw [hcmem]
        omega

/-- The ids of the product bodies of one merge pass are consecutive fresh
ids starting at the entry `next_body_id`. -/
lemma mergeScan_new_ids (e : SimulationEngine) :
    (mergeScan e).newBodies.map (fun b => b.id)
      = (List.range (mergeScan e).newBodies.length).map
          (fun k : ℕ => e.next_body_id + (k : Int)) := by
  have inv := mergeScan_inv e
  rw [List.ext_get?_iff]
  intro k
  rw [List.get?_map, List.get?_map]
  by_cases hk : k < (mergeScan e).newBodies.length
  · have hkp : k < (mergeScan e).pairs.length := by rw [← inv.lenNew]; exact hk
    cases hp : (mergeScan e).pairs.get? k with
    | none =>
      rw [List.get?_eq_none] at hp
      omega
    | some p =>
      obtain ⟨b1, b2, _, _, hnb⟩ := inv.newOk k p hp
      rw [hnb, List.get?_range hk]
      rfl
  · rw [List.get?_eq_none.mpr (by omega),
      List.get?_eq_none.mpr (by rw [List.length_range]; omega)]
    rfl

lemma engineInv_merge (e : SimulationEngine) (h : EngineInv e) :
    EngineInv (handleCollisionsMerge e) := by
  obtain ⟨hnd, hlt⟩ := h
  have inv := mergeScan_inv e
  have hbodies := mergePass_bodies e
  have hsub : ((e.bodies.enum.filter (fun kb =>
      !kb.2.merged && !(decide (kb.1 ∈ selOf (mergeScan e).pairs)))).map Prod.snd).Sublist
      e.bodies := by
    have h1 := (List.filter_sublist (l := e.bodies.enum) (p := fun kb =>
      !kb.2.merged && !(decide (kb.1 ∈ selOf (mergeScan e).pairs)))).map Prod.snd
    rwa [List.enum_map_snd] at h1
  constructor
  · rw [hbodies, List.map_append, List.nodup_append]
    refine ⟨(hsub.map _).nodup hnd, ?_, ?_⟩
    · rw [mergeScan_new_ids]
      refine List.Nodup.map ?_ (List.nodup_range _)
      intro a b hab
      dsimp only at hab
      omega
    · intro a ha1 ha2
      have hlt' : a < e.next_body_id := by
        rw [List.mem_map] at ha1
        obtain ⟨c, hc, rfl⟩ := ha1
        exact hlt c (hsub.subset hc)
      rw [mergeScan_new_ids, List.mem_map] at ha2
      obtain ⟨k, _, rfl⟩ := ha2
      omega
  · intro b hb
    rw [hbodies, List.mem_append] at hb
    show b.id < (mergeScan e).nextId
    rw [inv.nextEq]
    have hk0 : (0 : Int) ≤ ((mergeScan e).pairs.length : Int) := Int.ofNat_nonneg _
    rcases hb with hb | hb
    · have := hlt b (hsub.subset hb)
      omega
    · obtain ⟨k, hk⟩ := List.mem_iff_get?.mp hb
      have hklt : k < (mergeScan e).newBodies.length := by
        by_contra hle
        push_neg at hle
        rw [List.get?_eq_none.mpr hle] at hk
        exact Option.noConfusion hk
      have hkp : k < (mergeScan e).pairs.length := by rw [← inv.lenNew]; exact hklt
      cases hp : (mergeScan e).pairs.get? k with
      | none =>
        rw [List.get?_eq_none] at hp
        omega
      | some p =>
        obtain ⟨b1, b2, _, _, hnb⟩ := inv.newOk k p hp
        rw [hk] at hnb
        cases hnb
        show e.next_body_id + (k : Int) < _
        omega

lemma engineInv_applyOp (e : SimulationEngine) (h : EngineInv e) (op : EngineOp) :
    EngineInv (applyOp e op) := by
  cases op with
  | addNew name mass pos vel radius color =>
    exact engineInv_addNew e h name mass pos vel radius color
  | addInstance b => exact engineInv_addInstance e h b
  | mergePassOp => exact engineInv_merge e h
  | clearAll => exact ⟨by simp [applyOp, clearBodies], by simp [applyOp, clearBodies]⟩

lemma engineInv_runOps :
    ∀ (ops : List EngineOp) (e : SimulationEngine), EngineInv e → EngineInv (runOps ops e) := by
  intro ops
  induction ops with
  | nil => intro e h; exact h
  | cons op ops ih =>
    intro e h
    exact ih (applyOp e op) (engineInv_applyOp e h op)

/-- What claim C6 says `add_body_instance` does on an id collision: the
incoming body is reassigned the fresh id `next_body_id` — an id carried by
no body already in the collection — and the counter moves past it. -/
def AddInstanceReassign (e : SimulationEngine) (b : SimBody) : Prop :=
  addBodyInstance b e
    = { e with
        bodies := e.bodies ++ [{ b with id := e.next_body_id }],
        next_body_id := e.next_body_id + 1 } ∧
  ∀ b2 ∈ e.bodies, b2.id ≠ e.next_body_id

/-- C6: body ids stay unique and below `next_body_id` under any sequence of
`add_new_body`, `add_body_instance`, merge passes and `clear_bodies` from a
fresh engine; and on an id collision `add_body_instance` reassigns a fresh
id colliding with no stored body. -/
theorem bodyIds_unique :
    (∀ ops : List EngineOp, EngineInv (runOps ops mkEngine)) ∧
    (∀ (e : SimulationEngine) (b : SimBody), EngineInv e →
      b.id ∈ e.bodies.map (fun x => x.id) → AddInstanceReassign e b) := by
  constructor
  · intro ops
    refine engineInv_runOps ops mkEngine ⟨?_, ?_⟩ <;> simp [mkEngine]
  · intro e b h hmem
    obtain ⟨hnd, hlt⟩ := h
    rw [AddInstanceReassign]
    constructor
    · simp only [addBodyInstance]
      rw [if_pos hmem]
      have hmax : max e.next_body_id (({ b with id := e.next_body_id } : SimBody).id + 1)
          = e.next_body_id + 1 := by
        show max e.next_body_id (e.next_body_id + 1) = e.next_body_id + 1
        omega
      rw [hmax]
    · intro b2 hb2
      have := hlt b2 hb2
      omega

/-- One pair interaction of `_handle_collisions_elastic` (loop body for the
pair (b1, b2)): on a closing overlap at distance above 1e-9, apply the 1-D
elastic collision formulas along the contact normal and separate the bodies
inversely to mass with the 1.01 overshoot factor; on near-coincidence
(distance ≤ 1e-9) jitter both positions by the random vectors `j1`, `j2`
(components of np.random.rand(3), scaled by radius·0.1); otherwise leave the
pair unchanged.  The returned flag records whether the jitter branch ran
(it consumes two random draws). -/
def elasticPairUpdate (j1 j2 : Vec3) (b1 b2 : SimBody) : SimBody × SimBody × Bool :=
  let dist_vec := b1.pos - b2.pos
  let dist := vnorm dist_vec
  let min_dist := b1.radius + b2.radius
  if dist < min_dist ∧ 1e-9 < dist then
    let n_vec := sdiv dist_vec dist
    let v_rel_n := dot (b1.vel - b2.vel) n_vec
    if v_rel_n < 0 then
      let m1 := b1.mass
      let m2 := b2.mass
      let v1n := dot b1.vel n_vec
      let v2n := dot b2.vel n_vec
      let v1f := (v1n * (m1 - m2) + 2 * m2 * v2n) / (m1 + m2)
      let v2f := (v2n * (m2 - m1) + 2 * m1 * v1n) / (m1 + m2)
      let overlap := min_dist - dist
      ({ b1 with
          vel := b1.vel + (v1f - v1n) • n_vec,
          pos := b1.pos + (overlap * m2 / (m1 + m2) * 1.01) • n_vec },
       { b2 with
          vel := b2.vel + (v2f - v2n) • n_vec,
          pos := b2.pos - (overlap * m1 / (m1 + m2) * 1.01) • n_vec }, false)
    else (b1, b2, false)
  else if dist ≤ 1e-9 then
    ({ b1 with pos := b1.pos + (b1.radius * 0.1) • j1 },
     { b2 with pos := b2.pos - (b2.radius * 0.1) • j2 }, true)
  else (b1, b2, false)

/-- The inner j-loop of `_handle_collisions_elastic`: `b1` is re-read from
the list on every iteration because the loop mutates it in place. -/
def elasticInner (rng : ℕ → Vec3) (i : ℕ) : List ℕ → List SimBody × ℕ → List SimBody × ℕ
  | [], s => s
  | j :: js, (bs, ctr) =>
    match bs.get? i, bs.get? j with
    | some b1, some b2 =>
      if b2.merged = true then elasticInner rng i js (bs, ctr)
      else
        let r := elasticPairUpdate (rng ctr) (rng (ctr + 1)) b1 b2
        elasticInner rng i js ((bs.set i r.1).set j r.2.1, if r.2.2 then ctr + 2 else ctr)
    | _, _ => elasticInner rng i js (bs, ctr)

/-- The outer i-loop of `_handle_collisions_elastic`. -/
def elasticOuter (rng : ℕ → Vec3) : List ℕ → List SimBody × ℕ → List SimBody × ℕ
  | [], s => s
  | i :: is, (bs, ctr) =>
    match bs.get? i with
    | none => elasticOuter rng is (bs, ctr)
    | some b1 =>
      if b1.merged = true then elasticOuter rng is (bs, ctr)
      else elasticOuter rng is
        (elasticInner rng i (List.range' (i + 1) (bs.length - (i + 1))) (bs, ctr))

/-- SimulationEngine._handle_collisions_elastic, with the np.random stream
passed explicitly. -/
def handleCollisionsElastic (rng : ℕ → Vec3) (e : SimulationEngine) : SimulationEngine :=
  { e with bodies := (elasticOuter rng (List.range e.bodies.length) (e.bodies, 0)).1 }

lemma dot_add_smul_left (v n t : Vec3) (c : ℝ) (h : dot n t = 0) :
    dot (v + c • n) t = dot v t := by
  simp only [dot, Vec3.x_add, Vec3.y_add, Vec3.z_add, Vec3.x_smul, Vec3.y_smul,
    Vec3.z_smul] at h ⊢
  linear_combination c * h

lemma smul_add_smul_cancel (m1 m2 a b : ℝ) (v1 v2 n : Vec3) (h : m1 * a + m2 * b = 0) :
    m1 • (v1 + a • n) + m2 • (v2 + b • n) = m1 • v1 + m2 • v2 := by
  ext
  · simp only [Vec3.x_add, Vec3.x_smul]
    linear_combination n.x * h
  · simp only [Vec3.y_add, Vec3.y_smul]
    linear_combination n.y * h
  · simp only [Vec3.z_add, Vec3.z_smul]
    linear_combination n.z * h

/-- C10: for a pair resolved by the elastic policy (center distance strictly
between 1e-9 and the radius sum, closing along the line of centers, positive
masses) the velocity update conserves the pair's total linear momentum and
leaves each body's velocity component perpendicular to the contact normal
unchanged. -/
theorem elastic_pair_momentum_tangent (j1 j2 : Vec3) (b1 b2 : SimBody)
    (hm1 : 0 < b1.mass) (hm2 : 0 < b2.mass)
    (hlo : 1e-9 < vnorm (b1.pos - b2.pos))
    (hhi : vnorm (b1.pos - b2.pos) < b1.radius + b2.radius)
    (hcl : dot (b1.vel - b2.vel) (sdiv (b1.pos - b2.pos) (vnorm (b1.pos - b2.pos))) < 0) :
    b1.mass • (elasticPairUpdate j1 j2 b1 b2).1.vel
        + b2.mass • (elasticPairUpdate j1 j2 b1 b2).2.1.vel
      = b1.mass • b1.vel + b2.mass • b2.vel ∧
    ∀ t : Vec3, dot (sdiv (b1.pos - b2.pos) (vnorm (b1.pos - b2.pos))) t = 0 →
      dot (elasticPairUpdate j1 j2 b1 b2).1.vel t = dot b1.vel t ∧
      dot (elasticPairUpdate j1 j2 b1 b2).2.1.vel t = dot b2.vel t := by
  have hmm : b1.mass + b2.mass ≠ 0 := by positivity
  have hstep : elasticPairUpdate j1 j2 b1 b2 =
      ({ b1 with
          vel := b1.vel + ((dot b1.vel (sdiv (b1.pos - b2.pos) (vnorm (b1.pos - b2.pos)))
              * (b1.mass - b2.mass)
            + 2 * b2.mass * dot b2.vel (sdiv (b1.pos - b2.pos) (vnorm (b1.pos - b2.pos))))
              / (b1.mass + b2.mass)
            - dot b1.vel (sdiv (b1.pos - b2.pos) (vnorm (b1.pos - b2.pos))))
            • sdiv (b1.pos - b2.pos) (vnorm (b1.pos - b2.pos)),
          pos := b1.pos + ((b1.radius + b2.radius - vnorm (b1.pos - b2.pos)) * b2.mass
              / (b1.mass + b2.mass) * 1.01)
            • sdiv (b1.pos - b2.pos) (vnorm (b1.pos - b2.pos)) },
       { b2 with
          vel := b2.vel + ((dot b2.vel (sdiv (b1.pos - b2.pos) (vnorm (b1.pos - b2.pos)))
              * (b2.mass - b1.mass)
            + 2 * b1.mass * dot b1.vel (sdiv (b1.pos - b2.pos) (vnorm (b1.pos - b2.pos))))
              / (b1.mass + b2.mass)
            - dot b2.vel (sdiv (b1.pos - b2.pos) (vnorm (b1.pos - b2.pos))))
            • sdiv (b1.pos - b2.pos) (vnorm (b1.pos - b2.pos)),
          pos := b2.pos - ((b1.radius + b2.radius - vnorm (b1.pos - b2.pos)) * b1.mass
              / (b1.mass + b2.mass) * 1.01)
            • sdiv (b1.pos - b2.pos) (vnorm (b1.pos - b2.pos)) }, false) := by
    rw [elasticPairUpdate]
    rw [if_pos ⟨hhi, hlo⟩, if_pos hcl]
  rw [hstep]
  constructor
  · refine smul_add_smul_cancel _ _ _ _ _ _ _ ?_
    field_simp
    ring
  · intro t ht
    exact ⟨dot_add_smul_left _ _ _ _ ht, dot_add_smul_left _ _ _ _ ht⟩

/-- SimBody.add_to_trail: append the current position, dropping the oldest
sample when the trail exceeds 1000 entries. -/
def addToTrail (b : SimBody) : SimBody :=
  let t := b.trail ++ [b.pos]
  { b with trail := if 1000 < t.length then t.drop 1 else t }

/-- The post-merge recompute condition of `simulation_step`:
`any(b.merged for b in self.bodies if not b.merged)`. -/
def mergeRecomputeGuard (bs : List SimBody) : Bool :=
  (bs.filter (fun b => !b.merged)).any (fun b => b.merged)

/-- SimulationEngine.simulation_step: no-op without active bodies; otherwise
record trails, integrate with the configured integrator (anything other than
'verlet' selects RK4), apply the configured collision policy — with the
guarded acceleration recompute after a merge pass — and advance elapsed
time. -/
def simulationStep (rng : ℕ → Vec3) (e : SimulationEngine) : SimulationEngine :=
  if (e.bodies.filter (fun b => !b.merged)).isEmpty then e
  else
    let e0 := { e with bodies := e.bodies.map (fun b => if b.merged then b else addToTrail b) }
    let e1 := if e0.integrator_type = "verlet" then verletStep e0 else rk4Step e0
    let e2 :=
      if e1.collision_model = "elastic" then handleCollisionsElastic rng e1
      else if e1.collision_model = "merge" then
        let e3 := handleCollisionsMerge e1
        if mergeRecomputeGuard e3.bodies then calculateAccelerations e3 else e3
      else e1
    { e2 with time_elapsed := e2.time_elapsed + e2.dt }

/-- `simulation_step` as the spec describes it (and as the in-source comment
intends it): identical to `simulationStep` except that the merge branch
never recomputes accelerations — because the guard's generator filters to
non-merged bodies and then tests their merged flag, it can never be true. -/
def simulationStepNoRecalc (rng : ℕ → Vec3) (e : SimulationEngine) : SimulationEngine :=
  if (e.bodies.filter (fun b => !b.merged)).isEmpty then e
  else
    let e0 := { e with bodies := e.bodies.map (fun b => if b.merged then b else addToTrail b) }
    let e1 := if e0.integrator_type = "verlet" then verletStep e0 else rk4Step e0
    let e2 :=
      if e1.collision_model = "elastic" then handleCollisionsElastic rng e1
      else if e1.collision_model = "merge" then handleCollisionsMerge e1
      else e1
    { e2 with time_elapsed := e2.time_elapsed + e2.dt }

lemma mergeRecomputeGuard_false (bs : List SimBody) : mergeRecomputeGuard bs = false := by
  rw [mergeRecomputeGuard, List.any_eq_false]
  intro b hb
  rw [List.mem_filter] at hb
  simp only [Bool.not_eq_true'] at hb
  simp [hb.2]

/-- C5 (code bug): the post-merge acceleration recompute of
`simulation_step` is dead code — its guard tests `b.merged` over bodies
filtered to `not b.merged` (and the merge pass has already dropped every
merged body), so it is false in every state and the engine never recomputes
accelerations after a merge. -/
theorem simulationStep_never_recomputes_after_merge :
    (∀ bs : List SimBody, mergeRecomputeGuard bs = false) ∧
    ∀ (rng : ℕ → Vec3) (e : SimulationEngine),
      simulationStep rng e = simulationStepNoRecalc rng e := by
  refine ⟨mergeRecomputeGuard_false, ?_⟩
  intro rng e
  rw [simulationStep, simulationStepNoRecalc]
  simp only [mergeRecomputeGuard_false, Bool.false_eq_true, if_false]

/-- SimBody.clear_trail. -/
def clearTrail (b : SimBody) : SimBody := { b with trail := [] }

/-- SimulationEngine.reset_time_and_trails: zero the clock, empty every
trail, clear every merged flag. -/
def resetTimeAndTrails (e : SimulationEngine) : SimulationEngine :=
  { e with
    time_elapsed := 0,
    bodies := e.bodies.map (fun b => { clearTrail b with merged := false }) }

/-- C9: resetting time and trails zeroes `time_elapsed`, empties every trail
and clears every merged flag while leaving each body's other fields (mass,
position, velocity, ...) and the rest of the engine configuration (G, dt,
integrator, collision model, id counter, list membership) unchanged. -/
theorem reset_zeroes_time_trails_only (e : SimulationEngine) :
    (resetTimeAndTrails e).time_elapsed = 0 ∧
    (resetTimeAndTrails e).G = e.G ∧
    (resetTimeAndTrails e).dt = e.dt ∧
    (resetTimeAndTrails e).integrator_type = e.integrator_type ∧
    (resetTimeAndTrails e).collision_model = e.collision_model ∧
    (resetTimeAndTrails e).next_body_id = e.next_body_id ∧
    ∀ i, (resetTimeAndTrails e).bodies.get? i
      = (e.bodies.get? i).map (fun b => { b with trail := [], merged := false }) := by
  refine ⟨rfl, rfl, rfl, rfl, rfl, rfl, ?_⟩
  intro i
  show ((e.bodies.map _).get? i) = _
  rw [List.get?_map]
  rfl

/-- The Python exception kinds relevant to `get_body_by_id`. -/
inductive PyErr
  | valueError
  | typeError
deriving DecidableEq

/-- The shapes of Python values a caller can pass as `body_id`: an int, a
string, or None. -/
inductive PyVal
  | pyInt (n : Int)
  | pyStr (s : String)
  | pyNone

/-- Python's built-in `int(...)` on those shapes: an int passes through, a
string is parsed as an integer literal (ValueError when it is not one), and
None is not convertible at all — `int(None)` raises TypeError, not
ValueError. -/
def pyParseInt : PyVal → Except PyErr Int
  | .pyInt n => .ok n
  | .pyStr s =>
    match s.toInt? with
    | some n => .ok n
    | none => .error .valueError
  | .pyNone => .error .typeError

/-- SimulationEngine.get_body_by_id: parse the id, return the first body
with that id or None.  Only ValueError is caught by the `except` clause; a
TypeError from `int(body_id)` propagates to the caller. -/
def getBodyById (e : SimulationEngine) (v : PyVal) : Except PyErr (Option SimBody) :=
  match pyParseInt v with
  | .ok t => .ok (e.bodies.find? (fun b => b.id == t))
  | .error .valueError => .ok none
  | .error .typeError => .error .typeError

/-- C7 counterexample: passing None makes `int(body_id)` raise TypeError,
which `get_body_by_id` does not catch — the call signals an error instead of
returning the absent marker. -/
theorem getBodyById_raises_on_none :
    getBodyById mkEngine PyVal.pyNone = Except.error PyErr.typeError := rfl

/-- C7 (amended): for int inputs and string inputs, `get_body_by_id` returns
the first stored body whose id equals the parse (None when no body matches
or the string is unparsable, the caught ValueError); for a None input the
uncaught TypeError propagates. -/
theorem getBodyById_amended :
    (∀ (e : SimulationEngine) (n : Int),
      getBodyById e (.pyInt n) = .ok (e.bodies.find? (fun b => b.id == n))) ∧
    (∀ (e : SimulationEngine) (s : String),
      getBodyById e (.pyStr s)
        = .ok (match s.toInt? with
            | some n => e.bodies.find? (fun b => b.id == n)
            | none => none)) ∧
    (∀ e : SimulationEngine, getBodyById e .pyNone = .error .typeError) ∧
    (∀ (e : SimulationEngine) (t : Int) (b : SimBody),
      e.bodies.find? (fun b => b.id == t) = some b → b.id = t ∧ b ∈ e.bodies) ∧
    (∀ (e : SimulationEngine) (t : Int),
      e.bodies.find? (fun b => b.id == t) = none ↔ ∀ b ∈ e.bodies, b.id ≠ t) := by
  refine ⟨fun e n => rfl, ?_, fun e => rfl, ?_, ?_⟩
  · intro e s
    cases h : s.toInt? <;> simp [getBodyById, pyParseInt, h]
  · intro e t b h
    constructor
    · have := List.find?_some h
      simpa using this
    · exact List.mem_of_find?_eq_some h
  · intro e t
    rw [List.find?_eq_none]
    constructor
    · intro h b hb
      have := h b hb
      simpa using this
    · intro h b hb
      simpa using h b hb

/-- The flat serialization record of a body:
{id, name, mass, pos[3], vel[3], radius, color}. -/
structure BodyRecord where
  id : Int
  name : String
  mass : ℝ
  pos : Vec3
  vel : Vec3
  radius : ℝ
  color : String

/-- SimBody.to_dict (pos.tolist()/vel.tolist() are exact). -/
def toDict (b : SimBody) : BodyRecord :=
  ⟨b.id, b.name, b.mass, b.pos, b.vel, b.radius, b.color⟩

/-- SimBody.from_dict: rebuild through the SimBody constructor, whose
validation rejects non-positive mass or radius (the raising branch is the
`none` result). -/
def fromDict (r : BodyRecord) : Option SimBody :=
  if 0 < r.mass ∧ 0 < r.radius then
    some (mkBody r.id r.name r.mass r.pos r.vel r.radius r.color)
  else none

/-- C8: serializing a validly-constructed body and reconstructing yields a
body with identical id, name, mass, radius, color, position and velocity
(exactly, in real arithmetic). -/
theorem body_roundtrip (b : SimBody) (hm : 0 < b.mass) (hr : 0 < b.radius) :
    ∃ b2, fromDict (toDict b) = some b2 ∧ b2.id = b.id ∧ b2.name = b.name ∧
      b2.mass = b.mass ∧ b2.radius = b.radius ∧ b2.color = b.color ∧
      b2.pos = b.pos ∧ b2.vel = b.vel := by
  refine ⟨mkBody b.id b.name b.mass b.pos b.vel b.radius b.color, ?_, rfl, rfl, rfl,
    rfl, rfl, rfl, rfl⟩
  rw [fromDict, if_pos ⟨hm, hr⟩]
  rfl

/-- A concrete active body used by the witnesses. -/
def wBody : SimBody := mkBody 0 "a" 1 ⟨0, 0, 0⟩ ⟨1, 0, 0⟩ 1 "blue"

/-- A concrete one-body engine used by the witnesses. -/
def wEngine : SimulationEngine := { mkEngine with bodies := [wBody], next_body_id := 1 }

theorem verletStep_meets_claim_witness :
    ((wEngine.bodies.filter (fun b => !b.merged)).isEmpty = false) ∧ VerletClaim wEngine :=
  ⟨rfl, verletStep_meets_claim wEngine rfl⟩

theorem rk4Step_meets_claim_witness :
    ((wEngine.bodies.filter (fun b => !b.merged)).isEmpty = false) ∧ Rk4Claim wEngine :=
  ⟨rfl, rk4Step_meets_claim wEngine rfl⟩

/-- Two overlapping unit-radius bodies at distance 1. -/
def m1Body : SimBody := mkBody 0 "m1" 1 ⟨0, 0, 0⟩ ⟨0, 0, 0⟩ 1 "red"

def m2Body : SimBody := mkBody 1 "m2" 1 ⟨1, 0, 0⟩ ⟨0, 0, 0⟩ 1 "blue"

def mEngine : SimulationEngine :=
  { mkEngine with bodies := [m1Body, m2Body], next_body_id := 2 }

theorem mergePass_meets_claim_witness :
    (∀ b ∈ mEngine.bodies, b.id < mEngine.next_body_id) ∧ MergeClaim mEngine := by
  have hid : ∀ b ∈ mEngine.bodies, b.id < mEngine.next_body_id := by decide
  exact ⟨hid, mergePass_meets_claim mEngine hid⟩

/-- A body whose id collides with `wBody`'s id. -/
def dupBody : SimBody := mkBody 0 "dup" 1 ⟨5, 0, 0⟩ ⟨0, 0, 0⟩ 1 "green"

theorem bodyIds_unique_witness :
    (EngineInv wEngine ∧ dupBody.id ∈ wEngine.bodies.map (fun x => x.id)) ∧
      AddInstanceReassign wEngine dupBody := by
  have h1 : EngineInv wEngine := by
    constructor
    · decide
    · decide
  have h2 : dupBody.id ∈ wEngine.bodies.map (fun x => x.id) := by decide
  exact ⟨⟨h1, h2⟩, bodyIds_unique.2 wEngine dupBody h1 h2⟩

theorem getBodyById_amended_witness :
    (wEngine.bodies.find? (fun b => b.id == 0) = some wBody) ∧
      (wBody.id = 0 ∧ wBody ∈ wEngine.bodies) :=
  ⟨rfl, getBodyById_amended.2.2.2.1 wEngine 0 wBody rfl⟩

theorem body_roundtrip_witness :
    (0 < wBody.mass ∧ 0 < wBody.radius) ∧
      (∃ b2, fromDict (toDict wBody) = some b2 ∧ b2.id = wBody.id ∧
        b2.name = wBody.name ∧ b2.mass = wBody.mass ∧ b2.radius = wBody.radius ∧
        b2.color = wBody.color ∧ b2.pos = wBody.pos ∧ b2.vel = wBody.vel) := by
  have hm : 0 < wBody.mass := by norm_num [wBody, mkBody]
  have hr : 0 < wBody.radius := by norm_num [wBody, mkBody]
  exact ⟨⟨hm, hr⟩, body_roundtrip wBody hm hr⟩

/-- Two overlapping radius-2 bodies at distance 3, approaching head-on. -/
def eB1 : SimBody := mkBody 0 "e1" 1 ⟨0, 0, 0⟩ ⟨1, 0, 0⟩ 2 "red"

def eB2 : SimBody := mkBody 1 "e2" 1 ⟨3, 0, 0⟩ ⟨-1, 0, 0⟩ 2 "blue"

theorem elastic_pair_momentum_tangent_witness :
    (0 < eB1.mass ∧ 0 < eB2.mass ∧
      1e-9 < vnorm (eB1.pos - eB2.pos) ∧
      vnorm (eB1.pos - eB2.pos) < eB1.radius + eB2.radius ∧
      dot (eB1.vel - eB2.vel) (sdiv (eB1.pos - eB2.pos) (vnorm (eB1.pos - eB2.pos))) < 0) ∧
    (eB1.mass • (elasticPairUpdate 0 0 eB1 eB2).1.vel
        + eB2.mass • (elasticPairUpdate 0 0 eB1 eB2).2.1.vel
      = eB1.mass • eB1.vel + eB2.mass • eB2.vel ∧
      ∀ t : Vec3, dot (sdiv (eB1.pos - eB2.pos) (vnorm (eB1.pos - eB2.pos))) t = 0 →
        dot (elasticPairUpdate 0 0 eB1 eB2).1.vel t = dot eB1.vel t ∧
        dot (elasticPairUpdate 0 0 eB1 eB2).2.1.vel t = dot eB2.vel t) := by
  have hd : dot (eB1.pos - eB2.pos) (eB1.pos - eB2.pos) = 9 := by
    norm_num [eB1, eB2, mkBody, dot]
  have hv : vnorm (eB1.pos - eB2.pos) = 3 := by
    rw [vnorm, hd, show (9 : ℝ) = 3 ^ 2 by norm_num,
      Real.sqrt_sq (by norm_num : (0 : ℝ) ≤ 3)]
  have h1 : 0 < eB1.mass := by norm_num [eB1, mkBody]
  have h2 : 0 < eB2.mass := by norm_num [eB2, mkBody]
  have h3 : 1e-9 < vnorm (eB1.pos - eB2.pos) := by rw [hv]; norm_num
  have h4 : vnorm (eB1.pos - eB2.pos) < eB1.radius + eB2.radius := by
    rw [hv]; norm_num [eB1, eB2, mkBody]
  have h5 : dot (eB1.vel - eB2.vel)
      (sdiv (eB1.pos - eB2.pos) (vnorm (eB1.pos - eB2.pos))) < 0 := by
    rw [hv]; norm_num [eB1, eB2, mkBody, dot, sdiv]
  exact ⟨⟨h1, h2, h3, h4, h5⟩, elastic_pair_momentum_tangent 0 0 eB1 eB2 h1 h2 h3 h4 h5⟩
